import Mathlib

/-!
Shallow embedding of the 6502-class CPU emulator in `src/main.rs`.

Rust `u8`/`u16` values are embedded as `Nat` with explicit `% 256` /
`% 65536` where the source wraps; operations that can panic in Rust
(array indexing out of bounds, `todo!`, `panic!`) are embedded as
`Option`-valued functions returning `none`, and the run loop returns a
`RunResult` that keeps a panic distinct from a normal BRK halt.
-/

namespace NES

/-- The `AddressingMode` enum from the source. -/
inductive AddressingMode where
  | Immediate
  | ZeroPage
  | ZeroPage_X
  | ZeroPage_Y
  | Absolute
  | Absolute_X
  | Absolute_Y
  | Indirect_X
  | Indirect_Y
  | NonAddressing
deriving DecidableEq, Repr

/-- The `CPU` struct. Memory is a total map on `Nat` addresses; the
source array `memory: [Value; 0xFFFF]` has `MEMSIZE` elements, and every
access goes through the bounds-checked `mem_read`/`mem_write` below. -/
structure CPU where
  register_a : Nat
  register_x : Nat
  register_y : Nat
  status : Nat
  program_counter : Nat
  memory : Nat → Nat

/-- Length of the memory array of the source: `[Value; 0xFFFF]`, i.e. 65535
elements (indices `0x0000 ..= 0xFFFE`). -/
def MEMSIZE : Nat := 0xFFFF

/-- `CPU::new()`: all registers zero, memory zeroed. -/
def CPU.new : CPU :=
  { register_a := 0
    register_x := 0
    register_y := 0
    status := 0
    program_counter := 0
    memory := fun _ => 0 }

/-- `mem_read`: `self.memory[addr as usize]`. Rust indexing panics when
`addr` is not below the array length, hence `none` there. -/
def mem_read (cpu : CPU) (addr : Nat) : Option Nat :=
  if addr < MEMSIZE then some (cpu.memory addr) else none

/-- `mem_write`: `self.memory[addr as usize] = value`, with the same
bounds behaviour as `mem_read`. -/
def mem_write (cpu : CPU) (addr value : Nat) : Option CPU :=
  if addr < MEMSIZE then
    some { cpu with memory := fun a => if a = addr then value else cpu.memory a }
  else none

/-- `mem_read_u16`: low byte at `addr`, high byte at `addr + 1` (plain
addition in the source, no wrap). -/
def mem_read_u16 (cpu : CPU) (addr : Nat) : Option Nat := do
  let lo ← mem_read cpu addr
  let hi ← mem_read cpu (addr + 1)
  return (hi <<< 8) ||| lo

/-- `mem_write_u16`: `hi = (value >> 8) as u8`, `lo = (value & 0xff) as u8`,
low byte stored at `addr`, high byte at `addr + 1` (plain addition). -/
def mem_write_u16 (cpu : CPU) (addr value : Nat) : Option CPU := do
  let hi := (value >>> 8) % 256
  let lo := value % 256
  let cpu ← mem_write cpu addr lo
  mem_write cpu (addr + 1) hi

/-- `get_op_address`: the addressing resolver. `wrapping_add` on `u8` is
`% 256`, on `u16` is `% 65536`; the `NonAddressing` arm is a `panic!`. -/
def get_op_address (cpu : CPU) (mode : AddressingMode) : Option Nat :=
  match mode with
  | .Immediate => some cpu.program_counter
  | .ZeroPage => mem_read cpu cpu.program_counter
  | .Absolute => mem_read_u16 cpu cpu.program_counter
  | .ZeroPage_X => do
      let pos ← mem_read cpu cpu.program_counter
      return (pos + cpu.register_x) % 256
  | .ZeroPage_Y => do
      let pos ← mem_read cpu cpu.program_counter
      return (pos + cpu.register_y) % 256
  | .Absolute_X => do
      let base ← mem_read_u16 cpu cpu.program_counter
      return (base + cpu.register_x) % 65536
  | .Absolute_Y => do
      let base ← mem_read_u16 cpu cpu.program_counter
      return (base + cpu.register_y) % 65536
  | .Indirect_X => do
      let base ← mem_read cpu cpu.program_counter
      let ptr := (base + cpu.register_x) % 256
      let lo ← mem_read cpu ptr
      let hi ← mem_read cpu ((ptr + 1) % 256)
      return (hi <<< 8) ||| lo
  | .Indirect_Y => do
      let base ← mem_read cpu cpu.program_counter
      let lo ← mem_read cpu base
      let hi ← mem_read cpu ((base + 1) % 256)
      let deref_base := (hi <<< 8) ||| lo
      return (deref_base + cpu.register_y) % 65536
  | .NonAddressing => none

/-- `update_zero_and_negative_flags`: bitmask set/clear of the Zero
(bit 1) and Negative (bit 7) flags from a result byte. -/
def update_zero_and_negative_flags (cpu : CPU) (result : Nat) : CPU :=
  let s1 := if result = 0 then cpu.status ||| 0b10 else cpu.status &&& 0b11111101
  let s2 := if result &&& 0b10000000 ≠ 0 then s1 ||| 0b10000000 else s1 &&& 0b01111111
  { cpu with status := s2 }

/-- `lda`: resolve the operand address, read it, store into the
accumulator, update flags from the accumulator. -/
def lda (cpu : CPU) (mode : AddressingMode) : Option CPU := do
  let addr ← get_op_address cpu mode
  let value ← mem_read cpu addr
  let cpu := { cpu with register_a := value }
  return update_zero_and_negative_flags cpu cpu.register_a

/-- `inx`: increment X with an explicit `0xFF → 0` wrap, update flags. -/
def inx (cpu : CPU) : CPU :=
  let x := if cpu.register_x = 0xFF then 0 else cpu.register_x + 1
  update_zero_and_negative_flags { cpu with register_x := x } x

/-- `tax`: X := accumulator, update flags from X. -/
def tax (cpu : CPU) : CPU :=
  let cpu := { cpu with register_x := cpu.register_a }
  update_zero_and_negative_flags cpu cpu.register_x

/-- `reset`: zero A, X and status, load the program counter from the
reset vector at `0xFFFC`. -/
def reset (cpu : CPU) : Option CPU := do
  let pc ← mem_read_u16 cpu 0xFFFC
  return { cpu with register_a := 0, register_x := 0, status := 0, program_counter := pc }

/-- `load`: `self.memory[0x8000..(0x8000 + program.len())]
.copy_from_slice(&program[..])` — the slice panics unless
`0x8000 + program.len() ≤ MEMSIZE` — then the reset vector at `0xFFFC`
is set to `0x8000`. -/
def load (cpu : CPU) (program : List Nat) : Option CPU :=
  if 0x8000 + program.length ≤ MEMSIZE then
    let mem := fun a =>
      if 0x8000 ≤ a ∧ a < 0x8000 + program.length then program.getD (a - 0x8000) 0
      else cpu.memory a
    mem_write_u16 { cpu with memory := mem } 0xFFFC 0x8000
  else none

/-- Outcome of `run`: a BRK halt with the final state, a panic
(`todo!`, `panic!` or an out-of-bounds access), or fuel exhaustion
(the source loop has no fuel; this constructor marks an unfinished
run, never a source behaviour). -/
inductive RunResult where
  | halted (cpu : CPU)
  | panic
  | outOfFuel (cpu : CPU)

/-- `run`: the fetch-decode-execute loop, with explicit fuel. Each
iteration fetches the opcode byte, advances the program counter, and
dispatches; the catch-all arm is a `todo!` panic. -/
def run (fuel : Nat) (cpu : CPU) : RunResult :=
  match fuel with
  | 0 => .outOfFuel cpu
  | fuel + 1 =>
    match mem_read cpu cpu.program_counter with
    | none => .panic
    | some opscode =>
      let cpu := { cpu with program_counter := (cpu.program_counter + 1) % 65536 }
      if opscode = 0x00 then
        .halted cpu
      else if opscode = 0xA9 then
        match lda cpu .Immediate with
        | none => .panic
        | some cpu => run fuel { cpu with program_counter := (cpu.program_counter + 1) % 65536 }
      else if opscode = 0xA5 then
        match lda cpu .ZeroPage with
        | none => .panic
        | some cpu => run fuel { cpu with program_counter := (cpu.program_counter + 1) % 65536 }
      else if opscode = 0xAD then
        match lda cpu .Absolute with
        | none => .panic
        | some cpu => run fuel { cpu with program_counter := (cpu.program_counter + 1) % 65536 }
      else if opscode = 0xAA then
        run fuel (tax cpu)
      else if opscode = 0xE8 then
        run fuel (inx cpu)
      else
        .panic

/-- `load_and_run`: load, reset, run (with fuel). -/
def load_and_run (fuel : Nat) (cpu : CPU) (program : List Nat) : Option RunResult := do
  let cpu ← load cpu program
  let cpu ← reset cpu
  return run fuel cpu

/-! ## Helper lemmas -/

/-- Recomposing the two bytes stored by `mem_write_u16` gives back the
original 16-bit value. -/
theorem u16_recompose {x : Nat} (hx : x < 65536) :
    (((x >>> 8) % 256) <<< 8) ||| x % 256 = x := by
  have h1 : x >>> 8 = x / 256 := by
    rw [Nat.shiftRight_eq_div_pow]
  have h2 : x / 256 < 256 := by omega
  rw [h1, Nat.mod_eq_of_lt h2, Nat.shiftLeft_eq]
  have h3 : x % 256 < 2 ^ 8 := by norm_num [Nat.mod_lt]
  calc x / 256 * 2 ^ 8 ||| x % 256
      = 2 ^ 8 * (x / 256) ||| x % 256 := by rw [Nat.mul_comm]
    _ = 2 ^ 8 * (x / 256) + x % 256 := (Nat.mul_add_lt_is_or h3 _).symm
    _ = x := by omega

/-- A byte has no set bits at positions 8 and above. -/
theorem byte_testBit_high {s i : Nat} (hs : s < 256) (hi : 8 ≤ i) : s.testBit i = false := by
  apply Nat.testBit_lt_two_pow
  calc s < 256 := hs
    _ = 2 ^ 8 := by norm_num
    _ ≤ 2 ^ i := Nat.pow_le_pow_right (by norm_num) hi

/-- `r &&& 0b1000_0000 != 0` is exactly the test of bit 7 of `r`. -/
theorem and_128_ne_zero_iff (r : Nat) : (r &&& 128 ≠ 0) ↔ r.testBit 7 = true := by
  rw [show (128 : Nat) = 2 ^ 7 by norm_num, Nat.and_two_pow]
  cases h : r.testBit 7 <;> simp [h]

/-- The status produced by `update_zero_and_negative_flags`, written out. -/
theorem update_status_formula (cpu : CPU) (r : Nat) :
    (update_zero_and_negative_flags cpu r).status =
      if r &&& 128 ≠ 0 then (if r = 0 then cpu.status ||| 2 else cpu.status &&& 253) ||| 128
      else (if r = 0 then cpu.status ||| 2 else cpu.status &&& 253) &&& 127 := rfl

set_option maxRecDepth 10000 in
/-- Bit-level behaviour of the three status formulas reachable in
`update_zero_and_negative_flags`, checked over all byte statuses. -/
theorem flags_bit_facts : ∀ s < 256,
    (((s ||| 2) &&& 127).testBit 1 = true)
  ∧ (((s &&& 253) ||| 128).testBit 1 = false)
  ∧ (((s &&& 253) &&& 127).testBit 1 = false)
  ∧ (((s ||| 2) &&& 127).testBit 7 = false)
  ∧ (((s &&& 253) ||| 128).testBit 7 = true)
  ∧ (((s &&& 253) &&& 127).testBit 7 = false)
  ∧ ((s ||| 2) &&& 127 < 256)
  ∧ ((s &&& 253) ||| 128 < 256)
  ∧ ((s &&& 253) &&& 127 < 256) := by decide

set_option maxRecDepth 10000 in
/-- Bits other than 1 and 7 are untouched by the zero-result formula. -/
theorem flags_other_bits_zero_set : ∀ s < 256, ∀ i < 8, i ≠ 1 → i ≠ 7 →
    ((s ||| 2) &&& 127).testBit i = s.testBit i := by decide

set_option maxRecDepth 10000 in
/-- Bits other than 1 and 7 are untouched by the negative-result formula. -/
theorem flags_other_bits_neg_set : ∀ s < 256, ∀ i < 8, i ≠ 1 → i ≠ 7 →
    ((s &&& 253) ||| 128).testBit i = s.testBit i := by decide

set_option maxRecDepth 10000 in
/-- Bits other than 1 and 7 are untouched by the both-clear formula. -/
theorem flags_other_bits_both_clear : ∀ s < 256, ∀ i < 8, i ≠ 1 → i ≠ 7 →
    ((s &&& 253) &&& 127).testBit i = s.testBit i := by decide

/-- `tax` produces its status via the shared flag update on its result. -/
theorem tax_status_eq (cpu : CPU) :
    (tax cpu).status = (update_zero_and_negative_flags cpu cpu.register_a).status := rfl

/-- `inx` produces its status via the shared flag update on its result. -/
theorem inx_status_eq (cpu : CPU) :
    (inx cpu).status =
      (update_zero_and_negative_flags cpu (if cpu.register_x = 0xFF then 0 else cpu.register_x + 1)).status := rfl

/-- `lda` produces its status via the shared flag update on the loaded
accumulator value. -/
theorem lda_status_eq {cpu c : CPU} {mode : AddressingMode} (h : lda cpu mode = some c) :
    c.status = (update_zero_and_negative_flags cpu c.register_a).status := by
  unfold lda at h
  cases hga : get_op_address cpu mode with
  | none => rw [hga] at h; simp at h
  | some addr =>
    rw [hga] at h
    simp only [Option.bind_eq_bind, Option.some_bind] at h
    cases hmr : mem_read cpu addr with
    | none => rw [hmr] at h; simp at h
    | some v =>
      rw [hmr] at h
      simp only [Option.bind_eq_bind, Option.some_bind, Option.pure_def, Option.some.injEq] at h
      subst h
      rfl

/-- `mem_write_u16` at an in-bounds address pair, written out. -/
theorem mem_write_u16_eq (cpu : CPU) (addr x : Nat)
    (h1 : addr < MEMSIZE) (h2 : addr + 1 < MEMSIZE) :
    mem_write_u16 cpu addr x = some { cpu with memory := fun a => if a = addr + 1 then (x >>> 8) % 256 else if a = addr then x % 256 else cpu.memory a } := by
  simp [mem_write_u16, mem_write, h1, h2]

/-- The flag update never touches register Y or memory. -/
theorem update_flags_frame (cpu : CPU) (r : Nat) :
    (update_zero_and_negative_flags cpu r).register_y = cpu.register_y
  ∧ (update_zero_and_negative_flags cpu r).memory = cpu.memory := ⟨rfl, rfl⟩

/-- A successful `lda` never touches register Y or memory. -/
theorem lda_frame {cpu c : CPU} {mode : AddressingMode} (h : lda cpu mode = some c) :
    c.register_y = cpu.register_y ∧ c.memory = cpu.memory := by
  unfold lda at h
  cases hga : get_op_address cpu mode with
  | none => rw [hga] at h; simp at h
  | some addr =>
    rw [hga] at h
    simp only [Option.bind_eq_bind, Option.some_bind] at h
    cases hmr : mem_read cpu addr with
    | none => rw [hmr] at h; simp at h
    | some v =>
      rw [hmr] at h
      simp only [Option.bind_eq_bind, Option.some_bind, Option.pure_def, Option.some.injEq] at h
      subst h
      exact ⟨rfl, rfl⟩

/-! ## Theorems -/

/-- C1: the claim says `mem_read`/`mem_write` never fail anywhere in
`0x0000`–`0xFFFF` because the size of the memory array equals the full range
of the 16-bit address type.  The array has `0xFFFF = 65535` elements,
one short of the `65536` addresses, so both operations fail (panic by
out-of-bounds indexing) at address `0xFFFF`, while every lower address
succeeds. -/
theorem mem_access_fails_at_0xFFFF :
    mem_read CPU.new 0xFFFF = none ∧ mem_write CPU.new 0xFFFF 0x42 = none
  ∧ (mem_read CPU.new 0xFFFE).isSome = true ∧ (mem_write CPU.new 0xFFFE 0x42).isSome = true :=
  ⟨rfl, rfl, rfl, rfl⟩

/-- C2: the claim says that after opcode `0xAD` (LDA absolute, two
operand bytes) the program counter ends at the address of the opcode byte
plus 3.  The `0xAD` arm advances the counter by only 1 past the opcode
byte, so it lands on the high byte of the operand: running
`[0xAD, 0x05, 0x80, 0x00]` from `0x8000` re-fetches the byte `0x80` at
`0x8002` as an opcode and panics instead of halting on the `0x00` at
`0x8003`. -/
theorem lda_absolute_pc_advance_bug :
    load_and_run 10 CPU.new [0xAD, 0x05, 0x80, 0x00] = some RunResult.panic := rfl

/-- C3 counterexample: a program of length `0x8000` makes
`0x8000 + len = 0x10000`, which does not exceed the `0x10000`-address
space, so by the claim it should load successfully; the code fails
(the slice `0x8000..0x10000` exceeds the `0xFFFF`-element array and
panics). -/
theorem load_len_0x8000_fails :
    load CPU.new (List.replicate 0x8000 0) = none := by
  unfold load
  rw [List.length_replicate]
  norm_num [MEMSIZE]

/-- C4: the claim says `mem_read_u16`/`mem_write_u16` wrap `address+1`
modulo `2^16` at the top of the space, so that a 16-bit access at
`0xFFFF` succeeds taking its high byte from `0x0000`.  The code uses
plain `addr + 1` with no wrap, and the access at `0xFFFF` (and even at
`0xFFFE`, whose high byte sits at the out-of-bounds index `0xFFFF`)
panics instead. -/
theorem mem_u16_no_wrap_at_top :
    mem_read_u16 CPU.new 0xFFFF = none ∧ mem_write_u16 CPU.new 0xFFFF 0x1234 = none
  ∧ mem_read_u16 CPU.new 0xFFFE = none ∧ (mem_read_u16 CPU.new 0xFFFD).isSome = true :=
  ⟨rfl, rfl, rfl, rfl⟩

/-- C8: `reset` zeroes the accumulator, X and status, loads the program
counter from the little-endian 16-bit reset vector at `0xFFFC`, and
leaves register Y and the whole memory unchanged. -/
theorem reset_spec (cpu : CPU) :
    ∃ c, reset cpu = some c
      ∧ c.register_a = 0 ∧ c.register_x = 0 ∧ c.status = 0
      ∧ c.program_counter = (cpu.memory 0xFFFD) <<< 8 ||| cpu.memory 0xFFFC
      ∧ c.register_y = cpu.register_y ∧ c.memory = cpu.memory := by
  have h : reset cpu = some { cpu with register_a := 0, register_x := 0, status := 0, program_counter := (cpu.memory 0xFFFD) <<< 8 ||| cpu.memory 0xFFFC } := by
    simp [reset, mem_read_u16, mem_read, MEMSIZE]
  exact ⟨_, h, rfl, rfl, rfl, rfl, rfl, rfl⟩

/-- C9: for every address at most `0xFFFD` and every 16-bit value `x`,
a `mem_write_u16` followed by `mem_read_u16` at the same address
succeeds and returns exactly `x`. -/
theorem mem_u16_roundtrip (cpu : CPU) (addr x : Nat)
    (haddr : addr ≤ 0xFFFD) (hx : x < 65536) :
    ∃ c, mem_write_u16 cpu addr x = some c ∧ mem_read_u16 c addr = some x := by
  have h1 : addr < MEMSIZE := by unfold MEMSIZE; omega
  have h2 : addr + 1 < MEMSIZE := by unfold MEMSIZE; omega
  have hne : addr ≠ addr + 1 := by omega
  refine ⟨{ cpu with memory := fun a => if a = addr + 1 then (x >>> 8) % 256 else if a = addr then x % 256 else cpu.memory a }, ?_, ?_⟩
  · simp [mem_write_u16, mem_write, h1, h2]
  · simp [mem_read_u16, mem_read, h1, h2, hne, u16_recompose hx]

/-- C9 witness: instantiate the round-trip at `addr = 0x1234`,
`x = 0xBEEF`. -/
theorem mem_u16_roundtrip_witness :
    ∃ c, mem_write_u16 CPU.new 0x1234 0xBEEF = some c
      ∧ mem_read_u16 c 0x1234 = some 0xBEEF :=
  mem_u16_roundtrip CPU.new 0x1234 0xBEEF (by norm_num) (by norm_num)

/-- C5: a fetched opcode byte outside `{0x00, 0xA9, 0xA5, 0xAD, 0xAA,
0xE8}` makes the run loop abort at once with the fatal outcome (the
`todo!` panic), which is a different `RunResult` constructor from the
BRK halt; and calling the addressing resolver with `NonAddressing`
also aborts (the `panic!` arm). -/
theorem unknown_opcode_fatal (cpu : CPU) (fuel op : Nat)
    (hop : mem_read cpu cpu.program_counter = some op)
    (hnot : op ∉ ([0x00, 0xA9, 0xA5, 0xAD, 0xAA, 0xE8] : List Nat)) :
    run (fuel + 1) cpu = RunResult.panic
  ∧ get_op_address cpu .NonAddressing = none
  ∧ ∀ c, RunResult.panic ≠ RunResult.halted c := by
  simp only [List.mem_cons, List.not_mem_nil, or_false, not_or] at hnot
  obtain ⟨h0, h1, h2, h3, h4, h5⟩ := hnot
  refine ⟨?_, rfl, fun c h => RunResult.noConfusion h⟩
  rw [run, hop]
  simp [h0, h1, h2, h3, h4, h5]

/-- C5 witness: a CPU whose next opcode byte is `0xFF`. -/
theorem unknown_opcode_fatal_witness :
    run 1 { CPU.new with memory := fun _ => 0xFF } = RunResult.panic
  ∧ get_op_address { CPU.new with memory := fun _ => 0xFF } .NonAddressing = none
  ∧ ∀ c, RunResult.panic ≠ RunResult.halted c :=
  unknown_opcode_fatal { CPU.new with memory := fun _ => 0xFF } 0 0xFF rfl (by decide)

/-- C6: for every result byte `r` and every prior byte status, the
shared flag update sets the Zero flag (status bit 1) iff `r = 0`,
clears it otherwise; sets the Negative flag (status bit 7) iff bit 7 of
`r` is set, clears it otherwise; leaves every other status bit exactly
unchanged; and LDA, TAX and INX each obtain their status through this
same update applied to their result value. -/
theorem update_flags_spec (cpu : CPU) (r : Nat) (hr : r < 256) (hs : cpu.status < 256) :
    ((update_zero_and_negative_flags cpu r).status.testBit 1 = true ↔ r = 0)
  ∧ ((update_zero_and_negative_flags cpu r).status.testBit 7 = r.testBit 7)
  ∧ (∀ i, i ≠ 1 → i ≠ 7 → (update_zero_and_negative_flags cpu r).status.testBit i = cpu.status.testBit i)
  ∧ (tax cpu).status = (update_zero_and_negative_flags cpu cpu.register_a).status
  ∧ (inx cpu).status = (update_zero_and_negative_flags cpu (if cpu.register_x = 0xFF then 0 else cpu.register_x + 1)).status
  ∧ (∀ mode c, lda cpu mode = some c → c.status = (update_zero_and_negative_flags cpu c.register_a).status) := by
  obtain ⟨hb1, hb2, hb3, hb4, hb5, hb6, hl1, hl2, hl3⟩ := flags_bit_facts cpu.status hs
  refine ⟨?_, ?_, ?_, tax_status_eq cpu, inx_status_eq cpu, fun mode c h => lda_status_eq h⟩
  all_goals rw [update_status_formula]
  all_goals by_cases hz : r = 0
  · subst hz
    rw [if_neg (show ¬((0 : Nat) &&& 128 ≠ 0) by decide), if_pos rfl]
    simp [hb1]
  · rw [if_neg hz]
    cases hbit : r.testBit 7 with
    | false =>
      rw [if_neg (fun hc => by rw [(and_128_ne_zero_iff r).mp hc] at hbit; cases hbit)]
      simp [hb3, hz]
    | true =>
      rw [if_pos ((and_128_ne_zero_iff r).mpr hbit)]
      simp [hb2, hz]
  · subst hz
    rw [if_neg (show ¬((0 : Nat) &&& 128 ≠ 0) by decide), if_pos rfl]
    simp [hb4]
  · rw [if_neg hz]
    cases hbit : r.testBit 7 with
    | false =>
      rw [if_neg (fun hc => by rw [(and_128_ne_zero_iff r).mp hc] at hbit; cases hbit)]
      rw [hb6]
    | true =>
      rw [if_pos ((and_128_ne_zero_iff r).mpr hbit)]
      rw [hb5]
  · subst hz
    rw [if_neg (show ¬((0 : Nat) &&& 128 ≠ 0) by decide), if_pos rfl]
    intro i h1 h7
    rcases Nat.lt_or_ge i 8 with hi | hi
    · exact flags_other_bits_zero_set cpu.status hs i hi h1 h7
    · rw [byte_testBit_high hl1 hi, byte_testBit_high hs hi]
  · rw [if_neg hz]
    intro i h1 h7
    rcases Nat.lt_or_ge i 8 with hi | hi
    · by_cases hc : r &&& 128 ≠ 0
      · rw [if_pos hc]
        exact flags_other_bits_neg_set cpu.status hs i hi h1 h7
      · rw [if_neg hc]
        exact flags_other_bits_both_clear cpu.status hs i hi h1 h7
    · by_cases hc : r &&& 128 ≠ 0
      · rw [if_pos hc, byte_testBit_high hl2 hi, byte_testBit_high hs hi]
      · rw [if_neg hc, byte_testBit_high hl3 hi, byte_testBit_high hs hi]

/-- C6 witness: the flag-update contract instantiated at a fresh CPU
and result byte `0x90` (non-zero, bit 7 set). -/
theorem update_flags_spec_witness :
    ((update_zero_and_negative_flags CPU.new 0x90).status.testBit 1 = true ↔ (0x90 : Nat) = 0)
  ∧ ((update_zero_and_negative_flags CPU.new 0x90).status.testBit 7 = (0x90 : Nat).testBit 7)
  ∧ (∀ i, i ≠ 1 → i ≠ 7 → (update_zero_and_negative_flags CPU.new 0x90).status.testBit i = CPU.new.status.testBit i)
  ∧ (tax CPU.new).status = (update_zero_and_negative_flags CPU.new CPU.new.register_a).status
  ∧ (inx CPU.new).status = (update_zero_and_negative_flags CPU.new (if CPU.new.register_x = 0xFF then 0 else CPU.new.register_x + 1)).status
  ∧ (∀ mode c, lda CPU.new mode = some c → c.status = (update_zero_and_negative_flags CPU.new c.register_a).status) :=
  update_flags_spec CPU.new 0x90 (by norm_num) (by norm_num [CPU.new])

/-- C7: zero-page arithmetic in the addressing resolver wraps within
8 bits, never into the high byte: with operand byte `b` at the program
counter, ZeroPage,X resolves to `(b + x) % 256`; Indexed-Indirect
forms the pointer `(b + x) % 256` and fetches its high byte from
`(ptr + 1) % 256`; Indirect-Indexed fetches the high byte of the pointer
from `(b + 1) % 256` — so a pointer byte `0xFF` reads its high byte
from zero-page address `0x00`, not `0x100`. -/
theorem zero_page_wrap_spec (cpu : CPU)
    (hpc : cpu.program_counter < MEMSIZE)
    (hb : cpu.memory cpu.program_counter < 256) :
    get_op_address cpu .ZeroPage_X = some ((cpu.memory cpu.program_counter + cpu.register_x) % 256)
  ∧ get_op_address cpu .Indirect_X = some ((cpu.memory (((cpu.memory cpu.program_counter + cpu.register_x) % 256 + 1) % 256) <<< 8) ||| cpu.memory ((cpu.memory cpu.program_counter + cpu.register_x) % 256))
  ∧ get_op_address cpu .Indirect_Y = some (((cpu.memory ((cpu.memory cpu.program_counter + 1) % 256) <<< 8 ||| cpu.memory (cpu.memory cpu.program_counter)) + cpu.register_y) % 65536) := by
  have h1 : ∀ m : Nat, m % 256 < MEMSIZE := by
    intro m
    have := Nat.mod_lt m (show 0 < 256 by norm_num)
    unfold MEMSIZE
    omega
  have h2 : cpu.memory cpu.program_counter < MEMSIZE := by
    unfold MEMSIZE
    omega
  refine ⟨?_, ?_, ?_⟩ <;> simp [get_op_address, mem_read, hpc, h1, h2]

/-- C7 witness: operand byte `0xFF` with X = 2 resolves ZeroPage,X to
`0x0001` (not `0x0101`), and the Indirect-Indexed pointer `0xFF` reads
its high byte from zero-page address `0x00` (value `0xFF`), giving
`0xFF00`. -/
theorem zero_page_wrap_witness :
    get_op_address { register_a := 0, register_x := 2, register_y := 0, status := 0, program_counter := 0, memory := fun a => if a = 0 then 0xFF else 0 } .ZeroPage_X = some 0x0001
  ∧ get_op_address { register_a := 0, register_x := 2, register_y := 0, status := 0, program_counter := 0, memory := fun a => if a = 0 then 0xFF else 0 } .Indirect_X = some 0
  ∧ get_op_address { register_a := 0, register_x := 2, register_y := 0, status := 0, program_counter := 0, memory := fun a => if a = 0 then 0xFF else 0 } .Indirect_Y = some 0xFF00 := by
  obtain ⟨hA, hB, hC⟩ := zero_page_wrap_spec
    { register_a := 0, register_x := 2, register_y := 0, status := 0, program_counter := 0, memory := fun a => if a = 0 then 0xFF else 0 }
    (by norm_num [MEMSIZE]) (by norm_num)
  exact ⟨hA, hB, hC⟩

/-- C3 (amended): `load` fails exactly when `0x8000 + len(program)`
exceeds `0xFFFF` — the size of the memory array, one short of the full
`0x10000`-address space — and the failure is the slice panic, fatal
to the run rather than a reported recoverable error; in particular a
program of length `0x8000`, which would fit the full 16-bit address
space, is rejected.  When `0x8000 + len ≤ 0xFFFF` the load succeeds
without truncation: the bytes are copied into memory starting at
`0x8000`, memory below `0x8000` is untouched, and the reset vector
`0x8000` is written little-endian at `0xFFFC`/`0xFFFD`. -/
theorem load_spec (cpu : CPU) (program : List Nat) :
    (MEMSIZE < 0x8000 + program.length → load cpu program = none)
  ∧ (0x8000 + program.length ≤ MEMSIZE →
      ∃ c, load cpu program = some c
        ∧ (∀ i, i < program.length → 0x8000 + i ≠ 0xFFFC → 0x8000 + i ≠ 0xFFFD →
             c.memory (0x8000 + i) = program.getD i 0)
        ∧ (∀ a, a < 0x8000 → c.memory a = cpu.memory a)
        ∧ c.memory 0xFFFC = 0x00 ∧ c.memory 0xFFFD = 0x80) := by
  constructor
  · intro h
    unfold load
    rw [if_neg (by omega)]
  · intro h
    unfold load
    rw [if_pos h, mem_write_u16_eq _ _ _ (by norm_num [MEMSIZE]) (by norm_num [MEMSIZE])]
    refine ⟨_, rfl, ?_, ?_, ?_, ?_⟩
    · intro i hi hc hd
      show (if 0x8000 + i = 0xFFFC + 1 then (0x8000 : Nat) >>> 8 % 256 else if 0x8000 + i = 0xFFFC then (0x8000 : Nat) % 256 else if 0x8000 ≤ 0x8000 + i ∧ 0x8000 + i < 0x8000 + program.length then program.getD (0x8000 + i - 0x8000) 0 else cpu.memory (0x8000 + i)) = program.getD i 0
      rw [if_neg (by omega), if_neg (by omega), if_pos (by omega), Nat.add_sub_cancel_left]
    · intro a ha
      show (if a = 0xFFFC + 1 then (0x8000 : Nat) >>> 8 % 256 else if a = 0xFFFC then (0x8000 : Nat) % 256 else if 0x8000 ≤ a ∧ a < 0x8000 + program.length then program.getD (a - 0x8000) 0 else cpu.memory a) = cpu.memory a
      rw [if_neg (by omega), if_neg (by omega), if_neg (by omega)]
    · norm_num
    · norm_num [Nat.shiftRight_eq_div_pow]

/-- C3 witness: the three-byte program `[0xA9, 0x05, 0x00]` fits, loads
at `0x8000`, and sets the reset vector. -/
theorem load_spec_witness :
    ∃ c, load CPU.new [0xA9, 0x05, 0x00] = some c
      ∧ (∀ i, i < [(0xA9 : Nat), 0x05, 0x00].length → 0x8000 + i ≠ 0xFFFC → 0x8000 + i ≠ 0xFFFD →
           c.memory (0x8000 + i) = [(0xA9 : Nat), 0x05, 0x00].getD i 0)
      ∧ (∀ a, a < 0x8000 → c.memory a = CPU.new.memory a)
      ∧ c.memory 0xFFFC = 0x00 ∧ c.memory 0xFFFD = 0x80 :=
  (load_spec CPU.new [0xA9, 0x05, 0x00]).2 (by norm_num [MEMSIZE])

/-- C10: any run that terminates by the BRK halt leaves register Y and
the entire memory exactly as they were at the start of the run: no
implemented instruction writes to memory or modifies Y. -/
theorem run_halted_frame : ∀ (fuel : Nat) (cpu c : CPU),
    run fuel cpu = RunResult.halted c →
    c.register_y = cpu.register_y ∧ c.memory = cpu.memory := by
  intro fuel
  induction fuel with
  | zero =>
    intro cpu c h
    rw [run] at h
    cases h
  | succ n ih =>
    intro cpu c h
    rw [run] at h
    cases hm : mem_read cpu cpu.program_counter with
    | none =>
      rw [hm] at h
      cases h
    | some op =>
      rw [hm] at h
      simp only [] at h
      by_cases h0 : op = 0x00
      · rw [if_pos h0] at h
        injection h with h2
        subst h2
        exact ⟨rfl, rfl⟩
      · rw [if_neg h0] at h
        by_cases h1 : op = 0xA9
        · rw [if_pos h1] at h
          cases hl : lda { cpu with program_counter := (cpu.program_counter + 1) % 65536 } .Immediate with
          | none => rw [hl] at h; cases h
          | some c2 =>
            rw [hl] at h
            exact ⟨(ih _ _ h).1.trans (lda_frame hl).1, (ih _ _ h).2.trans (lda_frame hl).2⟩
        · rw [if_neg h1] at h
          by_cases h2 : op = 0xA5
          · rw [if_pos h2] at h
            cases hl : lda { cpu with program_counter := (cpu.program_counter + 1) % 65536 } .ZeroPage with
            | none => rw [hl] at h; cases h
            | some c2 =>
              rw [hl] at h
              exact ⟨(ih _ _ h).1.trans (lda_frame hl).1, (ih _ _ h).2.trans (lda_frame hl).2⟩
          · rw [if_neg h2] at h
            by_cases h3 : op = 0xAD
            · rw [if_pos h3] at h
              cases hl : lda { cpu with program_counter := (cpu.program_counter + 1) % 65536 } .Absolute with
              | none => rw [hl] at h; cases h
              | some c2 =>
                rw [hl] at h
                exact ⟨(ih _ _ h).1.trans (lda_frame hl).1, (ih _ _ h).2.trans (lda_frame hl).2⟩
            · rw [if_neg h3] at h
              by_cases h4 : op = 0xAA
              · rw [if_pos h4] at h
                exact ih (tax { cpu with program_counter := (cpu.program_counter + 1) % 65536 }) c h
              · rw [if_neg h4] at h
                by_cases h5 : op = 0xE8
                · rw [if_pos h5] at h
                  exact ih (inx { cpu with program_counter := (cpu.program_counter + 1) % 65536 }) c h
                · rw [if_neg h5] at h
                  cases h

/-- C10 witness: a one-instruction run (`BRK` immediately) halts and
preserves Y and memory. -/
theorem run_halted_frame_witness :
    ({ CPU.new with program_counter := 1 } : CPU).register_y = CPU.new.register_y
  ∧ ({ CPU.new with program_counter := 1 } : CPU).memory = CPU.new.memory :=
  run_halted_frame 1 CPU.new { CPU.new with program_counter := 1 } rfl

end NES
